import Mathlib

/-!
Verification development for the pymongo-kit repository
(src/pymongokit/documents.py and src/pymongokit/collections.py).

The embedding models Python values with the inductive `PyVal`, Python dicts as
association lists over `String` keys, exceptions with the inductive `Exn`, and
the stateful mediator methods of `BaseCollection` as explicit state-passing
functions over an abstract store driver.  Exceptions do not roll back state,
so every mediator function returns `Except Exn PyVal × MState σ`.

The error handler bound at construction (`BaseErrorHandler` from the external
package `bike_rental_db`) is opaque to this repository; it is modelled as a
function `Exn → Option Exn`: the wrapper `_execute_with_error_handling` calls
`error_handler.handle_error(e)` and discards its return value, so the only
observable dispositions are `none` (the handler returns normally and the
wrapper falls through, returning Python `None`) and `some e1` (the handler
raises `e1`).

The schema engine (pydantic) is external as well; a document model is
parameterised by its declared fields, each with an abstract per-field
validation function `Option PyVal → Option PyVal` (`none` input means the
field is absent from the mapping; `none` output means validation failure).
The inherited `mongoid : Optional[str]` field of `BaseDocument` is modelled
as accepting a string or `None` and defaulting to `None` when absent.
-/

set_option maxRecDepth 4000

namespace PyMongoKit

/-- Dynamic Python values, as far as the two source files observe them. -/
inductive PyVal : Type where
  | none
  | pbool (b : Bool)
  | int (n : Int)
  | str (s : String)
  | objectId (n : Nat)
  | list (xs : List PyVal)
  | dict (m : List (String × PyVal))
  | record (mongoid : Option String) (fields : List (String × PyVal))
  | insertAck (ids : List PyVal)
  | updateAck (matchedCount : Nat) (modifiedCount : Nat)
  | deleteAck (deletedCount : Nat)

/-- A Python dict with string keys, in insertion order. -/
abbrev Mapping : Type := List (String × PyVal)

/-- The exceptions the embedded code can raise or observe. -/
inductive Exn : Type where
  | validationError (field : String)
  | typeError (msg : String)
  | attributeError (name : String)
  | unboundLocalError (name : String)
  | storeError (msg : String)
  deriving DecidableEq

/-- Key lookup in a mapping (first occurrence wins, as in a Python dict). -/
def lookupA : Mapping → String → Option PyVal
  | [], _ => Option.none
  | (k, v) :: rest, key => if k = key then some v else lookupA rest key

/-- Removal of a key from a mapping (`values.pop` / dict-comprehension filter). -/
def eraseKey (m : Mapping) (key : String) : Mapping :=
  m.filter (fun kv => kv.1 ≠ key)

/-- Assignment `m[key] = v` on a mapping, observed through `lookupA`. -/
def setKey (m : Mapping) (key : String) (v : PyVal) : Mapping :=
  eraseKey m key ++ [(key, v)]

/-- The string form `str(x)` of a value.  For `ObjectId` the decimal form of
the modelled identifier stands in for the 24-hex-character form; all the code
relies on is that it is a string determined by the identifier. -/
def pyStr : PyVal → String
  | PyVal.none => "None"
  | PyVal.pbool b => if b then "True" else "False"
  | PyVal.int n => toString n
  | PyVal.str s => s
  | PyVal.objectId n => toString n
  | PyVal.list _ => "list"
  | PyVal.dict _ => "dict"
  | PyVal.record _ _ => "record"
  | PyVal.insertAck _ => "InsertManyResult"
  | PyVal.updateAck _ _ => "UpdateResult"
  | PyVal.deleteAck _ => "DeleteResult"

/-! ### documents.py -/

/-- One schema-declared field of a `BaseDocument` subclass: its name and its
pydantic validation function (`none` input = field absent, `none` output =
validation failure).  The concrete functions belong to the external schema
engine; claims quantify over them. -/
structure FieldSpec where
  name : String
  fcheck : Option PyVal → Option PyVal

/-- A document model: the schema-declared fields of a `BaseDocument`
subclass, beyond the inherited `mongoid` field. -/
structure DocModel where
  fields : List FieldSpec

/-- `BaseDocument.handle_objectid` (root validator, pre=True):
if the mapping contains the key `_id`, its value is removed and its string
form is stored under `mongoid`. -/
def handle_objectid (values : Mapping) : Mapping :=
  match lookupA values "_id" with
  | some v => setKey (eraseKey values "_id") "mongoid" (PyVal.str (pyStr v))
  | Option.none => values

/-- Validation of the inherited field `mongoid : Optional[str] = None`:
absent or `None` gives `None`; a string is accepted; anything else fails. -/
def validateMongoid : Option PyVal → Except Exn (Option String)
  | Option.none => Except.ok Option.none
  | some PyVal.none => Except.ok Option.none
  | some (PyVal.str s) => Except.ok (some s)
  | some _ => Except.error (Exn.validationError "mongoid")

/-- Typed validation of the schema-declared fields, in declaration order.
The first failing field raises a validation error. -/
def runFields : List FieldSpec → Mapping → Except Exn Mapping
  | [], _ => Except.ok []
  | f :: fs, m =>
    match f.fcheck (lookupA m f.name) with
    | Option.none => Except.error (Exn.validationError f.name)
    | some v =>
      match runFields fs m with
      | Except.error e => Except.error e
      | Except.ok rest => Except.ok ((f.name, v) :: rest)

/-- `self.document_model(**raw)`: runs `handle_objectid`, then validates the
`mongoid` field and the schema-declared fields.  A successful result is the
record, given as its `mongoid` attribute and its typed field mapping. -/
def DocModel.validate (M : DocModel) (raw : Mapping) :
    Except Exn (Option String × Mapping) :=
  let values := handle_objectid raw
  match validateMongoid (lookupA values "mongoid") with
  | Except.error e => Except.error e
  | Except.ok mid =>
    match runFields M.fields values with
    | Except.error e => Except.error e
    | Except.ok flds => Except.ok (mid, flds)

/-- The serialized form of the `mongoid` attribute inside `super().dict()`. -/
def mongoidToVal : Option String → PyVal
  | Option.none => PyVal.none
  | some s => PyVal.str s

/-- `BaseDocument.dict`: `super().dict()` lists `mongoid` first (declared in
the base class) followed by the schema fields; the comprehension then filters
out the key `mongoid`. -/
def recordDictMap (mid : Option String) (flds : Mapping) : Mapping :=
  eraseKey (("mongoid", mongoidToVal mid) :: flds) "mongoid"

/-- `BaseDocument.dict` as a Python value. -/
def recordDictVal (mid : Option String) (flds : Mapping) : PyVal :=
  PyVal.dict (recordDictMap mid flds)

/-- Well-formedness of a schema, as pydantic guarantees it: declared field
names are unique, are distinct from the inherited `mongoid` field, and
(because attribute names starting with an underscore are private, never
fields) distinct from `_id`. -/
def DocModel.Wf (M : DocModel) : Prop :=
  (∀ f ∈ M.fields, f.name ≠ "mongoid" ∧ f.name ≠ "_id") ∧
    (M.fields.map (fun f => f.name)).Nodup

/-- A per-field validation function is idempotent on its own output: once a
value has been accepted, re-validating the accepted value accepts it
unchanged.  This is the contract of typed validation with defaults. -/
def Idem (c : Option PyVal → Option PyVal) : Prop :=
  ∀ v w, c v = some w → c (some w) = some w

/-! ### collections.py -/

/-- Which driver primitive the mediator invoked (observability of store
round-trips). -/
inductive CallTag : Type where
  | aggregate
  | insertMany
  | updateOneCall
  | updateManyCall
  | deleteOneCall
  | deleteManyCall
  deriving DecidableEq

/-- The external store driver (`self.collection`): state type `σ`, one
function per primitive the mediator uses.  Each call may raise and may change
the store state. -/
structure Driver (σ : Type) where
  aggregate : σ → PyVal → Except Exn PyVal × σ
  insert_many : σ → PyVal → Except Exn PyVal × σ
  update_one : σ → PyVal → PyVal → Except Exn PyVal × σ
  update_many : σ → PyVal → PyVal → Except Exn PyVal × σ
  delete_one : σ → PyVal → Except Exn PyVal × σ
  delete_many : σ → PyVal → Except Exn PyVal × σ

/-- Observable execution state: the store state, the trace of driver
primitives invoked, and the trace of exceptions handed to the error handler. -/
structure MState (σ : Type) where
  store : σ
  calls : List CallTag
  handled : List Exn

/-- The bound error handler: `none` means `handle_error` returned normally
(its value is discarded), `some e1` means it raised `e1`. -/
def Handler : Type := Exn → Option Exn

/-- `BaseCollection._execute_with_error_handling`: runs the unit of work; on
an exception, records it as handled and applies the handler disposition.
When the handler returns normally the wrapper falls through and returns
Python `None`. -/
def execWithErrorHandling {σ : Type} (h : Handler)
    (body : MState σ → Except Exn PyVal × MState σ) (s : MState σ) :
    Except Exn PyVal × MState σ :=
  match body s with
  | (Except.ok v, s1) => (Except.ok v, s1)
  | (Except.error e, s1) =>
    let s2 : MState σ := { s1 with handled := s1.handled ++ [e] }
    match h e with
    | Option.none => (Except.ok PyVal.none, s2)
    | some e1 => (Except.error e1, s2)

/-- Invocation of `self.collection.aggregate`, recorded in the call trace. -/
def callAggregate {σ : Type} (D : Driver σ) (p : PyVal) (s : MState σ) :
    Except Exn PyVal × MState σ :=
  let r := D.aggregate s.store p
  (r.1, { store := r.2, calls := s.calls ++ [CallTag.aggregate], handled := s.handled })

/-- Invocation of `self.collection.insert_many`, recorded in the call trace. -/
def callInsertMany {σ : Type} (D : Driver σ) (ds : PyVal) (s : MState σ) :
    Except Exn PyVal × MState σ :=
  let r := D.insert_many s.store ds
  (r.1, { store := r.2, calls := s.calls ++ [CallTag.insertMany], handled := s.handled })

/-- Single or batched delete, mirroring which bound method was passed. -/
inductive DelKind : Type where
  | one
  | many
  deriving DecidableEq

/-- Invocation of `self.collection.delete_one` / `delete_many`. -/
def callDelete {σ : Type} (D : Driver σ) (k : DelKind) (filterV : PyVal)
    (s : MState σ) : Except Exn PyVal × MState σ :=
  match k with
  | DelKind.one =>
    let r := D.delete_one s.store filterV
    (r.1, { store := r.2, calls := s.calls ++ [CallTag.deleteOneCall], handled := s.handled })
  | DelKind.many =>
    let r := D.delete_many s.store filterV
    (r.1, { store := r.2, calls := s.calls ++ [CallTag.deleteManyCall], handled := s.handled })

/-- `[self.document_model(**doc) for doc in docs]`: validating each element;
`**doc` on a non-mapping raises a `TypeError`. -/
def mapValidate (M : DocModel) : List PyVal → Except Exn (List PyVal)
  | [] => Except.ok []
  | d :: ds =>
    match d with
    | PyVal.dict m =>
      match M.validate m with
      | Except.error e => Except.error e
      | Except.ok r =>
        match mapValidate M ds with
        | Except.error e => Except.error e
        | Except.ok rs => Except.ok (PyVal.record r.1 r.2 :: rs)
    | _ => Except.error (Exn.typeError "argument after ** must be a mapping")

/-- The body of `_validate_docs.aux_func`, applied to a dynamic value:
iterating a non-list (in particular `None`) raises a `TypeError`. -/
def validateDocsBody (M : DocModel) : PyVal → Except Exn PyVal
  | PyVal.list ds =>
    match mapValidate M ds with
    | Except.error e => Except.error e
    | Except.ok rs => Except.ok (PyVal.list rs)
  | PyVal.none => Except.error (Exn.typeError "NoneType is not iterable")
  | _ => Except.error (Exn.typeError "not iterable")

/-- `BaseCollection._validate_docs`: the validation work wrapped in the
error-handling boundary (it performs no store call). -/
def validateDocs {σ : Type} (M : DocModel) (h : Handler) (docs : PyVal)
    (s : MState σ) : Except Exn PyVal × MState σ :=
  execWithErrorHandling h (fun s0 => (validateDocsBody M docs, s0)) s

/-- `[doc.dict() for doc in validated_docs]`: iterating `None` (the wrapper
outcome of a swallowed validation failure) raises a `TypeError`; the
elements, when present, are records and `.dict()` serializes each. -/
def dictOfEach : List PyVal → Except Exn (List PyVal)
  | [] => Except.ok []
  | PyVal.record mid flds :: rest =>
    match dictOfEach rest with
    | Except.error e => Except.error e
    | Except.ok ds => Except.ok (recordDictVal mid flds :: ds)
  | _ :: _ => Except.error (Exn.attributeError "dict")

/-- List-comprehension over a dynamic value. -/
def mapDicts : PyVal → Except Exn (List PyVal)
  | PyVal.list vs => dictOfEach vs
  | PyVal.none => Except.error (Exn.typeError "NoneType is not iterable")
  | _ => Except.error (Exn.typeError "not iterable")

/-- The body of `_execute_insertion.insert_documents`.  `func` is
`self.collection.insert_many` at both call sites (`insert_one` and
`insert_many`), hence it is embedded as `callInsertMany` directly; the
`find_query` argument of `_execute_insertion` is computed by the callers but
never read, so it does not appear here. -/
def insertDocumentsBody {σ : Type} (M : DocModel) (D : Driver σ) (h : Handler)
    (docs : PyVal) (s : MState σ) : Except Exn PyVal × MState σ :=
  match docs with
  | PyVal.dict m =>
    match M.validate m with
    | Except.error e => (Except.error e, s)
    | Except.ok r => callInsertMany D (PyVal.list [recordDictVal r.1 r.2]) s
  | _ =>
    match validateDocs M h docs s with
    | (Except.error e, s1) => (Except.error e, s1)
    | (Except.ok vd, s1) =>
      match mapDicts vd with
      | Except.error e => (Except.error e, s1)
      | Except.ok ds => callInsertMany D (PyVal.list ds) s1

/-- `BaseCollection._execute_insertion`: the insertion work wrapped in the
error-handling boundary. -/
def executeInsertion {σ : Type} (M : DocModel) (D : Driver σ) (h : Handler)
    (docs : PyVal) (s : MState σ) : Except Exn PyVal × MState σ :=
  execWithErrorHandling h (insertDocumentsBody M D h docs) s

/-- The body of `_execute_find.find_agg`: builds the pipeline
`[match(query)] + pipeline_steps` and runs the aggregation.  (The code only
appends when `pipeline_steps` is truthy; appending an empty list is the same
pipeline.) -/
def findAggBody {σ : Type} (D : Driver σ) (query : Mapping)
    (pipelineSteps : List PyVal) (s : MState σ) : Except Exn PyVal × MState σ :=
  callAggregate D (PyVal.list (PyVal.dict [("$match", PyVal.dict query)] :: pipelineSteps)) s

/-- `BaseCollection._execute_find`: the aggregation wrapped in the
error-handling boundary. -/
def executeFind {σ : Type} (D : Driver σ) (h : Handler) (query : Mapping)
    (pipelineSteps : List PyVal) (s : MState σ) : Except Exn PyVal × MState σ :=
  execWithErrorHandling h (findAggBody D query pipelineSteps) s

/-- The tail of `_handle_result`, after the `if validate:` statement.  The
local `validated_docs` is assigned only under that branch; it is tracked as
an `Option`, where `none` means the name is unbound, so that reading it under
`if func:` without a prior assignment raises `UnboundLocalError`. -/
def handleResultTail {σ : Type} (result : PyVal) (validatedDocs : Option PyVal)
    (func : Option (PyVal → Except Exn PyVal)) (s : MState σ) :
    Except Exn PyVal × MState σ :=
  match func with
  | some f =>
    match validatedDocs with
    | Option.none => (Except.error (Exn.unboundLocalError "validated_docs"), s)
    | some vd =>
      match f vd with
      | Except.ok r => (Except.ok r, s)
      | Except.error e => (Except.error e, s)
  | Option.none => (Except.ok result, s)

/-- `BaseCollection._handle_result`. -/
def handleResult {σ : Type} (M : DocModel) (h : Handler) (result : PyVal)
    (func : Option (PyVal → Except Exn PyVal)) (validate : Bool) (s : MState σ) :
    Except Exn PyVal × MState σ :=
  if validate then
    match validateDocs M h result s with
    | (Except.error e, s1) => (Except.error e, s1)
    | (Except.ok vd, s1) => handleResultTail result (some vd) func s1
  else handleResultTail result Option.none func s

/-- `BaseCollection.find`: executes the find, then shapes the result with
`validate=False`.  An exception escaping `_execute_find` (a handler re-raise)
propagates from the argument position. -/
def find {σ : Type} (M : DocModel) (D : Driver σ) (h : Handler) (query : Mapping)
    (pipelineSteps : List PyVal) (handleFunc : Option (PyVal → Except Exn PyVal))
    (s : MState σ) : Except Exn PyVal × MState σ :=
  match executeFind D h query pipelineSteps s with
  | (Except.error e, s1) => (Except.error e, s1)
  | (Except.ok res, s1) => handleResult M h res handleFunc false s1

/-- `BaseCollection.find_by_id`. -/
def find_by_id {σ : Type} (M : DocModel) (D : Driver σ) (h : Handler)
    (documentId : PyVal) (pipelineSteps : List PyVal)
    (handleFunc : Option (PyVal → Except Exn PyVal)) (s : MState σ) :
    Except Exn PyVal × MState σ :=
  find M D h [("_id", documentId)] pipelineSteps handleFunc s

/-- `BaseCollection.insert_many` (the `find_query` argument it builds is
never read by `_execute_insertion`). -/
def insert_many {σ : Type} (M : DocModel) (D : Driver σ) (h : Handler)
    (docs : List Mapping) (s : MState σ) : Except Exn PyVal × MState σ :=
  executeInsertion M D h (PyVal.list (docs.map PyVal.dict)) s

/-- `BaseCollection.insert_one` (single-dict branch of the insertion helper). -/
def insert_one {σ : Type} (M : DocModel) (D : Driver σ) (h : Handler)
    (doc : Mapping) (s : MState σ) : Except Exn PyVal × MState σ :=
  executeInsertion M D h (PyVal.dict doc) s

/-- `BaseCollection.insert_by_id`: `document_data["_id"] = document_id`
mutates the caller-supplied dict in place before delegating to `insert_one`.
Nothing downstream writes to that dict again (`model(**docs)` copies into
keyword arguments), so the caller-observed final dict is returned as the
second component alongside the call result. -/
def insert_by_id {σ : Type} (M : DocModel) (D : Driver σ) (h : Handler)
    (documentId : PyVal) (documentData : Mapping) (s : MState σ) :
    (Except Exn PyVal × MState σ) × Mapping :=
  let documentData1 := setKey documentData "_id" documentId
  (insert_one M D h documentData1 s, documentData1)

/-- Single or batched update, mirroring which bound method was passed. -/
inductive UpdKind : Type where
  | one
  | many
  deriving DecidableEq

/-- `BaseCollection._execute_update`.  Its first statement is
`result = self.execute_with_handling(...)`; `BaseCollection` defines no
attribute named `execute_with_handling` (the defined helper is
`_execute_with_error_handling`), so the attribute lookup raises
`AttributeError` before the error handler, the store update, or the re-fetch
is reached.  The remainder of the method — the `matched_count` test and the
re-fetch through `self.find_one(query)` / `self.find(query)` — is dead code
(`find_one` is itself not defined on the class). -/
def executeUpdate {σ : Type} (D : Driver σ) (h : Handler) (k : UpdKind)
    (query updateData : Mapping) (s : MState σ) : Except Exn PyVal × MState σ :=
  (Except.error (Exn.attributeError "execute_with_handling"), s)

/-- `BaseCollection.update_one`. -/
def update_one {σ : Type} (M : DocModel) (D : Driver σ) (h : Handler)
    (query updateData : Mapping) (s : MState σ) : Except Exn PyVal × MState σ :=
  executeUpdate D h UpdKind.one query updateData s

/-- `BaseCollection.update_many`. -/
def update_many {σ : Type} (M : DocModel) (D : Driver σ) (h : Handler)
    (query updateData : Mapping) (s : MState σ) : Except Exn PyVal × MState σ :=
  executeUpdate D h UpdKind.many query updateData s

/-- `BaseCollection.update_by_id`. -/
def update_by_id {σ : Type} (M : DocModel) (D : Driver σ) (h : Handler)
    (documentId : PyVal) (updateData : Mapping) (s : MState σ) :
    Except Exn PyVal × MState σ :=
  update_one M D h [("_id", documentId)] updateData s

/-- `BaseCollection._execute_delete`: the delete call wrapped in the
error-handling boundary; the raw driver acknowledgement is returned. -/
def executeDelete {σ : Type} (D : Driver σ) (h : Handler) (k : DelKind)
    (query : Mapping) (s : MState σ) : Except Exn PyVal × MState σ :=
  execWithErrorHandling h (fun s0 => callDelete D k (PyVal.dict query) s0) s

/-- `BaseCollection.delete_one`. -/
def delete_one {σ : Type} (M : DocModel) (D : Driver σ) (h : Handler)
    (query : Mapping) (s : MState σ) : Except Exn PyVal × MState σ :=
  executeDelete D h DelKind.one query s

/-- `BaseCollection.delete_many`. -/
def delete_many {σ : Type} (M : DocModel) (D : Driver σ) (h : Handler)
    (query : Mapping) (s : MState σ) : Except Exn PyVal × MState σ :=
  executeDelete D h DelKind.many query s

/-- `BaseCollection.delete_by_id`. -/
def delete_by_id {σ : Type} (M : DocModel) (D : Driver σ) (h : Handler)
    (documentId : PyVal) (s : MState σ) : Except Exn PyVal × MState σ :=
  delete_one M D h [("_id", documentId)] s

/-- Boolean success test for an `Except` result. -/
def isOkE {α : Type} : Except Exn α → Bool
  | Except.ok _ => true
  | Except.error _ => false

/-! ### Concrete instances used by closed theorems and witnesses -/

/-- A concrete schema field `a`, validated as an integer (accepted unchanged). -/
def demoField : FieldSpec :=
  { name := "a"
    fcheck := fun v =>
      match v with
      | some (PyVal.int n) => some (PyVal.int n)
      | _ => Option.none }

/-- A concrete document model with the single required integer field `a`. -/
def demoModel : DocModel := { fields := [demoField] }

/-- A handler that swallows every exception (log-and-return-nothing). -/
def swallowAll : Handler := fun _ => Option.none

/-- A handler that swallows validation failures and re-raises anything else
(a classifying disposition, allowed by the pluggable-handler contract). -/
def pickyHandler : Handler := fun e =>
  match e with
  | Exn.validationError _ => Option.none
  | e1 => some e1

/-- A concrete driver over a log of received payloads: every primitive
succeeds and records its input, so store round-trips are observable. -/
def logDriver : Driver (List PyVal) :=
  { aggregate := fun st p =>
      (Except.ok (PyVal.list [PyVal.dict [("a", PyVal.int 5)]]), st ++ [p])
    insert_many := fun st ds => (Except.ok (PyVal.insertAck [PyVal.objectId 1]), st ++ [ds])
    update_one := fun st q u => (Except.ok (PyVal.updateAck 1 1), st ++ [q, u])
    update_many := fun st q u => (Except.ok (PyVal.updateAck 2 2), st ++ [q, u])
    delete_one := fun st q => (Except.ok (PyVal.deleteAck 1), st ++ [q])
    delete_many := fun st q => (Except.ok (PyVal.deleteAck 2), st ++ [q]) }

/-- The initial execution state for the concrete driver. -/
def s0 : MState (List PyVal) := { store := [], calls := [], handled := [] }

/-- A driver whose updates acknowledge zero matched documents. -/
def noMatchDriver : Driver (List PyVal) :=
  { logDriver with
    update_one := fun st q u => (Except.ok (PyVal.updateAck 0 0), st ++ [q, u])
    update_many := fun st q u => (Except.ok (PyVal.updateAck 0 0), st ++ [q, u]) }

/-! ### Association-list lemmas -/

theorem lookupA_append (l1 l2 : Mapping) (k : String) :
    lookupA (l1 ++ l2) k =
      match lookupA l1 k with
      | some v => some v
      | Option.none => lookupA l2 k := by
  induction l1 with
  | nil => rfl
  | cons kv rest ih =>
    obtain ⟨a, b⟩ := kv
    by_cases h : a = k <;> simp [lookupA, h, ih]

theorem eraseKey_cons (a : String) (b : PyVal) (rest : Mapping) (k : String) :
    eraseKey ((a, b) :: rest) k =
      if a = k then eraseKey rest k else (a, b) :: eraseKey rest k := by
  by_cases h : a = k <;> simp [eraseKey, List.filter_cons, h]

theorem lookupA_eraseKey_self (m : Mapping) (k : String) :
    lookupA (eraseKey m k) k = Option.none := by
  induction m with
  | nil => rfl
  | cons kv rest ih =>
    obtain ⟨a, b⟩ := kv
    rw [eraseKey_cons]
    by_cases h : a = k
    · simpa [h] using ih
    · simpa [h, lookupA] using ih

theorem lookupA_eraseKey_other (m : Mapping) (k k1 : String) (hne : k1 ≠ k) :
    lookupA (eraseKey m k) k1 = lookupA m k1 := by
  induction m with
  | nil => rfl
  | cons kv rest ih =>
    obtain ⟨a, b⟩ := kv
    rw [eraseKey_cons]
    by_cases h : a = k
    · have ha : ¬a = k1 := fun hc => hne (by rw [← hc, h])
      rw [if_pos h]
      simpa [lookupA, ha] using ih
    · rw [if_neg h]
      by_cases h1 : a = k1
      · simp [lookupA, h1]
      · simp only [lookupA, if_neg h1]
        exact ih

theorem lookupA_setKey_self (m : Mapping) (k : String) (v : PyVal) :
    lookupA (setKey m k v) k = some v := by
  have h := lookupA_append (eraseKey m k) [(k, v)] k
  simp only [setKey, h, lookupA_eraseKey_self]
  simp [lookupA]

theorem lookupA_setKey_other (m : Mapping) (k k1 : String) (v : PyVal)
    (hne : k1 ≠ k) :
    lookupA (setKey m k v) k1 = lookupA m k1 := by
  have h := lookupA_append (eraseKey m k) [(k, v)] k1
  have hk : (k = k1) = False := by
    simp only [eq_iff_iff, iff_false]
    exact fun hc => hne hc.symm
  simp only [setKey, h, lookupA_eraseKey_other m k k1 hne, lookupA, hk, if_false]
  cases lookupA m k1 <;> rfl

theorem lookupA_not_mem (l : Mapping) (k : String)
    (hk : k ∉ l.map Prod.fst) : lookupA l k = Option.none := by
  induction l with
  | nil => rfl
  | cons kv rest ih =>
    obtain ⟨a, b⟩ := kv
    simp only [List.map_cons, List.mem_cons] at hk
    push_neg at hk
    have ha : ¬a = k := fun hc => hk.1 hc.symm
    simp [lookupA, ha, ih hk.2]

/-! ### runFields lemmas -/

theorem runFields_names (fs : List FieldSpec) (m l : Mapping)
    (h : runFields fs m = Except.ok l) :
    l.map Prod.fst = fs.map (fun f => f.name) := by
  induction fs generalizing l with
  | nil =>
    simp only [runFields] at h
    cases h
    rfl
  | cons f fs ih =>
    simp only [runFields] at h
    cases hc : f.fcheck (lookupA m f.name) with
    | none => rw [hc] at h; cases h
    | some v =>
      rw [hc] at h
      cases hr : runFields fs m with
      | error e => rw [hr] at h; cases h
      | ok rest =>
        rw [hr] at h
        cases h
        simp [ih rest hr]

theorem runFields_stable (fs : List FieldSpec) (m l m1 : Mapping)
    (hrun : runFields fs m = Except.ok l)
    (hnd : (fs.map (fun f => f.name)).Nodup)
    (hid : ∀ f ∈ fs, Idem f.fcheck)
    (hl : ∀ f ∈ fs, lookupA m1 f.name = lookupA l f.name) :
    runFields fs m1 = Except.ok l := by
  induction fs generalizing l m1 with
  | nil =>
    simp only [runFields] at hrun
    cases hrun
    rfl
  | cons f fs ih =>
    simp only [runFields] at hrun ⊢
    cases hc : f.fcheck (lookupA m f.name) with
    | none => rw [hc] at hrun; cases hrun
    | some v =>
      rw [hc] at hrun
      cases hr : runFields fs m with
      | error e => rw [hr] at hrun; cases hrun
      | ok rest =>
        rw [hr] at hrun
        cases hrun
        have hm1 : lookupA m1 f.name = some v := by
          rw [hl f (List.mem_cons_self f fs)]
          simp [lookupA]
        have hidf : f.fcheck (some v) = some v :=
          hid f (List.mem_cons_self f fs) (lookupA m f.name) v hc
        rw [hm1, hidf]
        simp only [List.map_cons, List.nodup_cons] at hnd
        have hrest : runFields fs m1 = Except.ok rest := by
          refine ih rest m1 hr hnd.2 (fun g hg => hid g (List.mem_cons_of_mem f hg))
            (fun g hg => ?_)
          have hgname : g.name ≠ f.name := by
            intro hc1
            exact hnd.1 (hc1 ▸ List.mem_map_of_mem (fun f => f.name) hg)
          rw [hl g (List.mem_cons_of_mem f hg)]
          have hfg : ¬f.name = g.name := fun hc1 => hgname hc1.symm
          simp [lookupA, hfg]
        rw [hrest]

/-- The concrete integer validator of `demoField` is idempotent on its own
output. -/
theorem demoField_idem : Idem demoField.fcheck := by
  intro v w h
  cases v with
  | none => simp [demoField] at h
  | some x => cases x <;> simp only [demoField] at h <;> cases h <;> rfl

/-- Hypothesis bundle for the concrete model: every field validator is
idempotent. -/
theorem demoModel_idem : ∀ f ∈ demoModel.fields, Idem f.fcheck := by
  intro f hf
  simp only [demoModel, List.mem_singleton] at hf
  subst hf
  exact demoField_idem

/-- Well-formedness of the concrete model. -/
theorem demoModel_wf : demoModel.Wf := by
  constructor
  · intro f hf
    simp only [demoModel, List.mem_singleton] at hf
    subst hf
    exact ⟨by decide, by decide⟩
  · simp [demoModel, demoField]

/-! ### Claim theorems -/

/-- C1: the spec asserts a single error-handling boundary through which every
validation step and store call of every mediator operation passes, with every
failure handed to the bound error handler.  The update operations violate
this: `_execute_update` begins with `self.execute_with_handling(...)`, an
attribute `BaseCollection` does not define (the defined helper is
`_execute_with_error_handling`), so for every driver, handler, filter, patch
and state, `update_one` and `update_many` raise `AttributeError` directly to
the caller: the error handler is never invoked and no store call is made (the
final state, including the call trace and the handled-exceptions trace,
equals the initial state). -/
theorem update_ops_bypass_error_boundary {σ : Type} (M : DocModel) (D : Driver σ)
    (h : Handler) (q p : Mapping) (s : MState σ) :
    update_one M D h q p s =
      (Except.error (Exn.attributeError "execute_with_handling"), s) ∧
    update_many M D h q p s =
      (Except.error (Exn.attributeError "execute_with_handling"), s) :=
  ⟨rfl, rfl⟩

/-- C2: against a concrete driver whose `update_one` primitive acknowledges
one matched document, the mediator `update_one` does not perform the write
followed by a read-back returning the post-update document: it raises
`AttributeError` (the nonexistent `execute_with_handling`) and its call trace
stays empty — neither the update nor any `find` round-trip happens. -/
theorem update_one_no_post_update_read :
    update_one demoModel logDriver swallowAll
        [("a", PyVal.int 5)] [("a", PyVal.int 9)] s0 =
      (Except.error (Exn.attributeError "execute_with_handling"), s0) := rfl

/-- C3: against a concrete driver whose update primitives acknowledge zero
matched documents, `update_many` does not return the empty list (nor does
`update_one` return an absent result): the operation raises `AttributeError`
before the update is even attempted. -/
theorem update_many_zero_matched_raises :
    update_many demoModel noMatchDriver swallowAll
        [("zzz", PyVal.int 0)] [("a", PyVal.int 2)] s0 =
      (Except.error (Exn.attributeError "execute_with_handling"), s0) := rfl

/-- C4: `insert_one` on a document that validates does submit a one-element
batch to the insert_many primitive — the driver receives exactly
`[validated.dict()]` and exactly one `insertMany` call is traced — but the
value returned is the raw store acknowledgement, not the validated form of
the document: the result is the `InsertManyResult` value, which is distinct
from the serialized validated record. -/
theorem insert_one_returns_ack_not_validated_doc :
    insert_one demoModel logDriver swallowAll [("a", PyVal.int 3)] s0 =
      (Except.ok (PyVal.insertAck [PyVal.objectId 1]),
        { store := [PyVal.list [PyVal.dict [("a", PyVal.int 3)]]],
          calls := [CallTag.insertMany], handled := [] }) ∧
    demoModel.validate [("a", PyVal.int 3)] =
      Except.ok (Option.none, [("a", PyVal.int 3)]) ∧
    recordDictVal Option.none [("a", PyVal.int 3)] =
      PyVal.dict [("a", PyVal.int 3)] ∧
    PyVal.insertAck [PyVal.objectId 1] ≠ PyVal.dict [("a", PyVal.int 3)] :=
  ⟨rfl, rfl, rfl, fun hc => PyVal.noConfusion hc⟩

/-- C6: `find` with a post-processing function raises `UnboundLocalError`
instead of returning the function applied to the raw matched list:
`find` calls `_handle_result` with `validate=False`, so `validated_docs` is
never assigned, and `func(validated_docs)` reads an unbound local (the
identity function is used here, so any function exhibits it).  Without a
function, `find` does return the raw aggregation result unvalidated. -/
theorem find_handle_func_unbound_local :
    find demoModel logDriver swallowAll [] [] (some (fun v => Except.ok v)) s0 =
      (Except.error (Exn.unboundLocalError "validated_docs"),
        { store := [PyVal.list [PyVal.dict [("$match", PyVal.dict [])]]],
          calls := [CallTag.aggregate], handled := [] }) ∧
    find demoModel logDriver swallowAll [] [] Option.none s0 =
      (Except.ok (PyVal.list [PyVal.dict [("a", PyVal.int 5)]]),
        { store := [PyVal.list [PyVal.dict [("$match", PyVal.dict [])]]],
          calls := [CallTag.aggregate], handled := [] }) :=
  ⟨rfl, rfl⟩

/-- If any mapping in the batch fails validation, the element-wise validation
comprehension raises. -/
theorem mapValidate_error_of_mem (M : DocModel) (docs : List Mapping)
    (hfail : ∃ m ∈ docs, isOkE (M.validate m) = false) :
    ∃ e, mapValidate M (docs.map PyVal.dict) = Except.error e := by
  induction docs with
  | nil =>
    obtain ⟨m, hm, _⟩ := hfail
    cases hm
  | cons d ds ih =>
    obtain ⟨m, hm, hmf⟩ := hfail
    cases hv : M.validate d with
    | error e => exact ⟨e, by simp only [List.map_cons, mapValidate, hv]⟩
    | ok r =>
      rcases List.mem_cons.mp hm with hmd | hmds
      · rw [hmd, hv] at hmf
        simp [isOkE] at hmf
      · obtain ⟨e, he⟩ := ih ⟨m, hmds, hmf⟩
        exact ⟨e, by simp only [List.map_cons, mapValidate, hv, he]⟩

/-- C5: for every model, driver, handler, batch and state, if at least one
document of the batch fails schema validation then `insert_many` performs no
store call at all (the call trace is unchanged) and persists nothing (the
store state is unchanged) — in particular the documents that would have
validated are not inserted. -/
theorem insert_many_no_partial_insert {σ : Type} (M : DocModel) (D : Driver σ)
    (h : Handler) (docs : List Mapping) (s : MState σ)
    (hfail : ∃ m ∈ docs, isOkE (M.validate m) = false) :
    (insert_many M D h docs s).2.store = s.store ∧
    (insert_many M D h docs s).2.calls = s.calls := by
  obtain ⟨e, he⟩ := mapValidate_error_of_mem M docs hfail
  have hbody : validateDocsBody M (PyVal.list (docs.map PyVal.dict)) =
      Except.error e := by
    simp only [validateDocsBody, he]
  simp only [insert_many, executeInsertion]
  cases hhe : h e with
  | none =>
    have hvd : validateDocs M h (PyVal.list (docs.map PyVal.dict)) s =
        (Except.ok PyVal.none, { s with handled := s.handled ++ [e] }) := by
      simp only [validateDocs, execWithErrorHandling, hbody, hhe]
    have hidb : insertDocumentsBody M D h (PyVal.list (docs.map PyVal.dict)) s =
        (Except.error (Exn.typeError "NoneType is not iterable"),
          { s with handled := s.handled ++ [e] }) := by
      simp only [insertDocumentsBody, hvd, mapDicts]
    cases hh2 : h (Exn.typeError "NoneType is not iterable") <;>
      simp only [execWithErrorHandling, hidb, hh2] <;> exact ⟨trivial, trivial⟩
  | some e1 =>
    have hvd : validateDocs M h (PyVal.list (docs.map PyVal.dict)) s =
        (Except.error e1, { s with handled := s.handled ++ [e] }) := by
      simp only [validateDocs, execWithErrorHandling, hbody, hhe]
    have hidb : insertDocumentsBody M D h (PyVal.list (docs.map PyVal.dict)) s =
        (Except.error e1, { s with handled := s.handled ++ [e] }) := by
      simp only [insertDocumentsBody, hvd]
    cases hh2 : h e1 <;>
      simp only [execWithErrorHandling, hidb, hh2] <;> exact ⟨trivial, trivial⟩

/-- C5 witness: a concrete batch whose second document is missing the
required field `a`; the hypothesis is checked by evaluation and the
conclusion instantiates the theorem. -/
theorem insert_many_no_partial_insert_witness :
    (∃ m ∈ [[("a", PyVal.int 1)], [("b", PyVal.int 2)]],
      isOkE (demoModel.validate m) = false) ∧
    (insert_many demoModel logDriver swallowAll
        [[("a", PyVal.int 1)], [("b", PyVal.int 2)]] s0).2.store = s0.store ∧
    (insert_many demoModel logDriver swallowAll
        [[("a", PyVal.int 1)], [("b", PyVal.int 2)]] s0).2.calls = s0.calls :=
  ⟨⟨[("b", PyVal.int 2)], by simp, rfl⟩,
    insert_many_no_partial_insert demoModel logDriver swallowAll
      [[("a", PyVal.int 1)], [("b", PyVal.int 2)]] s0
      ⟨[("b", PyVal.int 2)], by simp, rfl⟩⟩

/-- C10: `insert_by_id` rebinds `_id` in the caller-supplied mapping before
delegating to `insert_one`: the mapping component of the outcome equals the
original mapping with `_id` set to the given identity, the call result is
exactly `insert_one` applied to that mutated mapping, and the mutated mapping
does not depend on the driver, handler or state — in particular it is the
same when the insert subsequently fails. -/
theorem insert_by_id_mutates_caller_mapping {σ : Type} (M : DocModel)
    (D : Driver σ) (h : Handler) (documentId : PyVal) (documentData : Mapping)
    (s : MState σ) :
    (insert_by_id M D h documentId documentData s).2 =
      setKey documentData "_id" documentId ∧
    (insert_by_id M D h documentId documentData s).1 =
      insert_one M D h (setKey documentData "_id" documentId) s ∧
    ∀ (σ1 : Type) (D1 : Driver σ1) (h1 : Handler) (s1 : MState σ1),
      (insert_by_id M D1 h1 documentId documentData s1).2 =
        (insert_by_id M D h documentId documentData s).2 :=
  ⟨rfl, rfl, fun _ _ _ _ => rfl⟩

/-! ### Validation inversion and composition -/

theorem validate_inv (M : DocModel) (m : Mapping) (mid : Option String)
    (flds : Mapping) (hv : M.validate m = Except.ok (mid, flds)) :
    validateMongoid (lookupA (handle_objectid m) "mongoid") = Except.ok mid ∧
    runFields M.fields (handle_objectid m) = Except.ok flds := by
  simp only [DocModel.validate] at hv
  cases h1 : validateMongoid (lookupA (handle_objectid m) "mongoid") with
  | error e => rw [h1] at hv; cases hv
  | ok mid1 =>
    simp only [h1] at hv
    cases h2 : runFields M.fields (handle_objectid m) with
    | error e => rw [h2] at hv; cases hv
    | ok flds1 =>
      simp only [h2, Except.ok.injEq, Prod.mk.injEq] at hv
      obtain ⟨ha, hb⟩ := hv
      exact ⟨by rw [ha], by rw [hb]⟩

theorem validate_eq_of (M : DocModel) (m : Mapping) (mid : Option String)
    (flds : Mapping)
    (h1 : validateMongoid (lookupA (handle_objectid m) "mongoid") = Except.ok mid)
    (h2 : runFields M.fields (handle_objectid m) = Except.ok flds) :
    M.validate m = Except.ok (mid, flds) := by
  simp only [DocModel.validate, h1, h2]

/-- The serialized record never contains the key `mongoid`. -/
theorem recordDictMap_no_mongoid (mid : Option String) (flds : Mapping) :
    lookupA (recordDictMap mid flds) "mongoid" = Option.none :=
  lookupA_eraseKey_self _ _

/-- Keys other than `mongoid` look up in the serialized record exactly as in
the typed field mapping. -/
theorem recordDictMap_lookup_other (mid : Option String) (flds : Mapping)
    (k : String) (hk : k ≠ "mongoid") :
    lookupA (recordDictMap mid flds) k = lookupA flds k := by
  rw [recordDictMap, lookupA_eraseKey_other _ _ _ hk]
  have hmk : ¬("mongoid" : String) = k := fun hc => hk hc.symm
  simp [lookupA, hmk]

/-- C7: for every well-formed document model and every field mapping that
contains the store-native identity field `_id = X` and validates
successfully, the resulting record carries `mongoid = str(X)` as its external
identity attribute, and the serialized form of the record (its `dict`)
contains neither the `mongoid` attribute nor any `_id` field. -/
theorem validate_relocates_and_dict_omits_id (M : DocModel) (hwf : M.Wf)
    (m : Mapping) (X : PyVal) (hX : lookupA m "_id" = some X)
    (mid : Option String) (flds : Mapping)
    (hv : M.validate m = Except.ok (mid, flds)) :
    mid = some (pyStr X) ∧
    lookupA (recordDictMap mid flds) "mongoid" = Option.none ∧
    lookupA (recordDictMap mid flds) "_id" = Option.none := by
  obtain ⟨h1, h2⟩ := validate_inv M m mid flds hv
  have hvals : handle_objectid m =
      setKey (eraseKey m "_id") "mongoid" (PyVal.str (pyStr X)) := by
    simp [handle_objectid, hX]
  have hmid : mid = some (pyStr X) := by
    rw [hvals, lookupA_setKey_self] at h1
    simp only [validateMongoid, Except.ok.injEq] at h1
    exact h1.symm
  refine ⟨hmid, recordDictMap_no_mongoid mid flds, ?_⟩
  have hnames := runFields_names M.fields _ flds h2
  have hid_not : "_id" ∉ flds.map Prod.fst := by
    rw [hnames]
    intro hmem
    obtain ⟨f, hf, hfn⟩ := List.mem_map.mp hmem
    exact (hwf.1 f hf).2 hfn
  rw [recordDictMap_lookup_other mid flds "_id" (by decide)]
  exact lookupA_not_mem flds "_id" hid_not

/-- C7 witness: the concrete model and a mapping carrying `_id = ObjectId(7)`
and `a = 3`; the hypotheses are discharged by evaluation and the conclusion
instantiates the theorem. -/
theorem validate_relocates_and_dict_omits_id_witness :
    demoModel.Wf ∧
    lookupA [("_id", PyVal.objectId 7), ("a", PyVal.int 3)] "_id" =
      some (PyVal.objectId 7) ∧
    demoModel.validate [("_id", PyVal.objectId 7), ("a", PyVal.int 3)] =
      Except.ok (some "7", [("a", PyVal.int 3)]) ∧
    (some "7" = some (pyStr (PyVal.objectId 7)) ∧
      lookupA (recordDictMap (some "7") [("a", PyVal.int 3)]) "mongoid" =
        Option.none ∧
      lookupA (recordDictMap (some "7") [("a", PyVal.int 3)]) "_id" =
        Option.none) :=
  ⟨demoModel_wf, rfl, rfl,
    validate_relocates_and_dict_omits_id demoModel demoModel_wf
      [("_id", PyVal.objectId 7), ("a", PyVal.int 3)] (PyVal.objectId 7) rfl
      (some "7") [("a", PyVal.int 3)] rfl⟩

/-- C8: validate and serialize are inverses over the schema fields.  For
every well-formed document model whose per-field validation functions are
idempotent on their own output, and every raw mapping that validates to a
record, re-validating the union of the serialized record with the
identity-bearing field taken from the record reconstructs exactly the same
record. -/
theorem validate_serialize_roundtrip (M : DocModel) (hwf : M.Wf)
    (hid : ∀ f ∈ M.fields, Idem f.fcheck)
    (raw : Mapping) (mid : Option String) (flds : Mapping)
    (hv : M.validate raw = Except.ok (mid, flds)) :
    M.validate (setKey (recordDictMap mid flds) "mongoid" (mongoidToVal mid)) =
      Except.ok (mid, flds) := by
  obtain ⟨h1, h2⟩ := validate_inv M raw mid flds hv
  have hnames := runFields_names M.fields _ flds h2
  have hid_not : "_id" ∉ flds.map Prod.fst := by
    rw [hnames]
    intro hmem
    obtain ⟨f, hf, hfn⟩ := List.mem_map.mp hmem
    exact (hwf.1 f hf).2 hfn
  have hids : lookupA
      (setKey (recordDictMap mid flds) "mongoid" (mongoidToVal mid)) "_id" =
      Option.none := by
    rw [lookupA_setKey_other _ _ _ _ (by decide),
      recordDictMap_lookup_other mid flds "_id" (by decide)]
    exact lookupA_not_mem flds "_id" hid_not
  have hho : handle_objectid
      (setKey (recordDictMap mid flds) "mongoid" (mongoidToVal mid)) =
      setKey (recordDictMap mid flds) "mongoid" (mongoidToVal mid) := by
    simp [handle_objectid, hids]
  have hmlk : lookupA
      (setKey (recordDictMap mid flds) "mongoid" (mongoidToVal mid)) "mongoid" =
      some (mongoidToVal mid) := lookupA_setKey_self _ _ _
  have hvm : validateMongoid (some (mongoidToVal mid)) = Except.ok mid := by
    cases mid <;> rfl
  have hl : ∀ f ∈ M.fields,
      lookupA (setKey (recordDictMap mid flds) "mongoid" (mongoidToVal mid)) f.name =
        lookupA flds f.name := by
    intro f hf
    have h1f : f.name ≠ "mongoid" := (hwf.1 f hf).1
    rw [lookupA_setKey_other _ _ _ _ h1f,
      recordDictMap_lookup_other mid flds f.name h1f]
  have hrf : runFields M.fields
      (setKey (recordDictMap mid flds) "mongoid" (mongoidToVal mid)) =
      Except.ok flds := by
    refine runFields_stable M.fields (handle_objectid raw) flds _ h2 hwf.2 hid ?_
    intro f hf
    rw [hl f hf]
  exact validate_eq_of M _ mid flds (by rw [hho, hmlk]; exact hvm)
    (by rw [hho]; exact hrf)

/-- C8 witness: the concrete model, a raw mapping with `_id` and `a`; the
round trip through `dict` plus the re-attached identity field reconstructs
the same record.  All hypotheses are discharged at the concrete input and
the conclusion instantiates the theorem. -/
theorem validate_serialize_roundtrip_witness :
    demoModel.Wf ∧
    (∀ f ∈ demoModel.fields, Idem f.fcheck) ∧
    demoModel.validate [("_id", PyVal.objectId 7), ("a", PyVal.int 3)] =
      Except.ok (some "7", [("a", PyVal.int 3)]) ∧
    demoModel.validate
        (setKey (recordDictMap (some "7") [("a", PyVal.int 3)]) "mongoid"
          (mongoidToVal (some "7"))) =
      Except.ok (some "7", [("a", PyVal.int 3)]) :=
  ⟨demoModel_wf, demoModel_idem, rfl,
    validate_serialize_roundtrip demoModel demoModel_wf demoModel_idem
      [("_id", PyVal.objectId 7), ("a", PyVal.int 3)] (some "7")
      [("a", PyVal.int 3)] rfl⟩

/-! ### C9: the two insertion paths -/

/-- The boundary only looks at the body applied to the current state. -/
theorem execWEH_congr {σ : Type} (h : Handler)
    (b1 b2 : MState σ → Except Exn PyVal × MState σ) (s : MState σ)
    (hb : b1 s = b2 s) :
    execWithErrorHandling h b1 s = execWithErrorHandling h b2 s := by
  simp only [execWithErrorHandling, hb]

/-- On a document that validates, the single-dict path and the one-element
list path coincide completely: both submit the same one-element batch from
the same state and return the same outcome. -/
theorem insert_agree_of_ok {σ : Type} (M : DocModel) (D : Driver σ)
    (h : Handler) (doc : Mapping) (s : MState σ) (mid : Option String)
    (flds : Mapping) (hv : M.validate doc = Except.ok (mid, flds)) :
    insert_one M D h doc s = insert_many M D h [doc] s := by
  have h1 : insertDocumentsBody M D h (PyVal.dict doc) s =
      callInsertMany D (PyVal.list [recordDictVal mid flds]) s := by
    simp only [insertDocumentsBody, hv]
  have h2 : insertDocumentsBody M D h (PyVal.list [PyVal.dict doc]) s =
      callInsertMany D (PyVal.list [recordDictVal mid flds]) s := by
    simp only [insertDocumentsBody, validateDocs, validateDocsBody, mapValidate,
      hv, execWithErrorHandling, mapDicts, dictOfEach]
  show execWithErrorHandling h (insertDocumentsBody M D h (PyVal.dict doc)) s =
    execWithErrorHandling h (insertDocumentsBody M D h (PyVal.list [PyVal.dict doc])) s
  exact execWEH_congr h _ _ s (h1.trans h2.symm)

/-- C9 counterexample: with a classifying handler — one that swallows
validation failures but re-raises type errors, an allowed pluggable policy —
and a document missing the required field, `insert_one(doc)` returns `None`
while `insert_many([doc])` raises `TypeError`: the two call paths do not
yield the same result on failure, because the list path passes the swallowed
validation failure through the boundary a second time as the `TypeError` of
iterating `None`. -/
theorem insert_one_many_diverge :
    (insert_one demoModel logDriver pickyHandler [("b", PyVal.int 2)] s0).1 =
      Except.ok PyVal.none ∧
    (insert_many demoModel logDriver pickyHandler [[("b", PyVal.int 2)]] s0).1 =
      Except.error (Exn.typeError "NoneType is not iterable") ∧
    (Except.ok PyVal.none : Except Exn PyVal) ≠
      Except.error (Exn.typeError "NoneType is not iterable") :=
  ⟨rfl, rfl, fun hc => Except.noConfusion hc⟩

/-- C9 amended: `insert_one(doc)` and `insert_many([doc])` yield the same
result whenever the document validates (then both submit the identical
one-element batch and return the identical outcome, whatever the handler
does), and also on validation failure provided the bound error handler's
disposition does not depend on the exception it receives; a handler that
distinguishes exception kinds can drive the two paths apart, because the
list path reports a swallowed validation failure a second time as a
`TypeError`. -/
theorem insert_one_many_agree {σ : Type} (M : DocModel) (D : Driver σ)
    (h : Handler) (doc : Mapping) (s : MState σ)
    (hcase : isOkE (M.validate doc) = true ∨ ∀ e1 e2 : Exn, h e1 = h e2) :
    (insert_one M D h doc s).1 = (insert_many M D h [doc] s).1 := by
  cases hv : M.validate doc with
  | ok r =>
    obtain ⟨mid, flds⟩ := r
    rw [insert_agree_of_ok M D h doc s mid flds hv]
  | error e =>
    rcases hcase with hok | hconst
    · rw [hv] at hok
      simp [isOkE] at hok
    · cases hc : h e with
      | none =>
        have htE : h (Exn.typeError "NoneType is not iterable") = Option.none :=
          (hconst _ e).trans hc
        have hone : (insert_one M D h doc s).1 = Except.ok PyVal.none := by
          show (execWithErrorHandling h
            (insertDocumentsBody M D h (PyVal.dict doc)) s).1 = _
          simp only [insertDocumentsBody, hv, execWithErrorHandling, hc]
        have hmany : (insert_many M D h [doc] s).1 = Except.ok PyVal.none := by
          show (execWithErrorHandling h
            (insertDocumentsBody M D h (PyVal.list [PyVal.dict doc])) s).1 = _
          simp only [insertDocumentsBody, validateDocs, validateDocsBody,
            mapValidate, hv, execWithErrorHandling, hc, mapDicts, htE]
        rw [hone, hmany]
      | some e1 =>
        have he1 : h e1 = some e1 := (hconst e1 e).trans hc
        have hone : (insert_one M D h doc s).1 = Except.error e1 := by
          show (execWithErrorHandling h
            (insertDocumentsBody M D h (PyVal.dict doc)) s).1 = _
          simp only [insertDocumentsBody, hv, execWithErrorHandling, hc]
        have hmany : (insert_many M D h [doc] s).1 = Except.error e1 := by
          show (execWithErrorHandling h
            (insertDocumentsBody M D h (PyVal.list [PyVal.dict doc])) s).1 = _
          simp only [insertDocumentsBody, validateDocs, validateDocsBody,
            mapValidate, hv, execWithErrorHandling, hc, he1]
        rw [hone, hmany]

/-- C9 amended witness: at a concrete validating document both insertion
paths return the same store acknowledgement. -/
theorem insert_one_many_agree_witness :
    (isOkE (demoModel.validate [("a", PyVal.int 3)]) = true ∨
      ∀ e1 e2 : Exn, swallowAll e1 = swallowAll e2) ∧
    (insert_one demoModel logDriver swallowAll [("a", PyVal.int 3)] s0).1 =
      (insert_many demoModel logDriver swallowAll [[("a", PyVal.int 3)]] s0).1 :=
  ⟨Or.inl rfl,
    insert_one_many_agree demoModel logDriver swallowAll [("a", PyVal.int 3)] s0
      (Or.inl rfl)⟩

end PyMongoKit
